import Mathlib

/-!
Shallow embedding of `src/utility.py`: the `AbstractFactory` registry class
(tag canonicalization, decorator-based registration, tag-based creation) and
the `auto_field_assignment` decorator.

A Python class object is identified by its `__module__` and `__name__`
(`FactoryClass`).  The process-wide registry dict is threaded explicitly as an
association list from canonical keys to registrees; Python dict insertion
appends at the end, lookup takes the first match.  A registree (the decorated
constructor) is a callable with a `__name__`; its argument list and result are
abstract types `Args` and `Value`.  A raised exception is modelled as the
`Except.error` branch carrying the message; statements that in Python mutate
`cls.registry` return the new table instead.
-/

/-- A Python class object as the registry code observes it: its
`__module__` and `__name__` attributes. -/
structure FactoryClass where
  module : String
  name : String
deriving DecidableEq

/-- A registered constructor: a callable with a `__name__` attribute
(`registree.__name__`) taking arguments `Args` to a result `Value`. -/
structure Registree (Args Value : Type) where
  name : String
  fn : Args → Value

/-- The registry table `AbstractFactory.registry`: a dict from canonical key
to constructor, as an insertion-ordered association list. -/
abbrev Registry (Args Value : Type) : Type := List (String × Registree Args Value)

/-- The key set of the dict (`tag in cls.registry` tests membership here). -/
def keys {Args Value : Type} (reg : Registry Args Value) : List String :=
  reg.map Prod.fst

/-- Dict lookup `cls.registry[tag]`: first entry with the given key. -/
def regLookup {Args Value : Type} (k : String) :
    Registry Args Value → Option (Registree Args Value)
  | [] => none
  | (k', r) :: rest => if k = k' then some r else regLookup k rest

/-- Embedding of `AbstractFactory.default_tag`: `registree.__name__`. -/
def default_tag {Args Value : Type} (registree : Registree Args Value) : String :=
  registree.name

/-- Embedding of `AbstractFactory.namespace`: the f-string
`f"{cls.__module__}.{cls.__name__}"`. -/
def namespaceOf (cls : FactoryClass) : String :=
  cls.module ++ "." ++ cls.name

/-- Embedding of `AbstractFactory.canonicalize`: the f-string
`f"{cls.namespace()}.{tag}"`. -/
def canonicalize (cls : FactoryClass) (tag : String) : String :=
  namespaceOf cls ++ "." ++ tag

/-- The tag chosen by the decorator body:
`custom_tag if custom_tag else cls.default_tag(registree)`.
Python truthiness: `None` and the empty string both select the default. -/
def effective_tag {Args Value : Type} (custom_tag : Option String)
    (registree : Registree Args Value) : String :=
  match custom_tag with
  | some t => if t = "" then default_tag registree else t
  | none => default_tag registree

/-- Embedding of the decorator returned by `AbstractFactory.register`, applied
to `registree` in registry state `reg`.  The `assert` raising is the
`Except.error` outcome (message as in the source) and leaves the dict as it
was; otherwise the entry is inserted and the registree returned unchanged. -/
def register {Args Value : Type} (cls : FactoryClass) (custom_tag : Option String)
    (registree : Registree Args Value) (reg : Registry Args Value) :
    Except String (Registree Args Value) × Registry Args Value :=
  if canonicalize cls (effective_tag custom_tag registree) ∈ keys reg then
    (Except.error ("Duplicate tag registration found! Tag "
        ++ canonicalize cls (effective_tag custom_tag registree)
        ++ " has already been registered"), reg)
  else
    (Except.ok registree,
      reg ++ [(canonicalize cls (effective_tag custom_tag registree), registree)])

/-- Embedding of `AbstractFactory.create`: canonicalize the tag, and either
invoke the registered constructor on the arguments or raise
`NotImplementedError` with the message of the source.  The registry state is
returned alongside: the method never assigns to it. -/
def create {Args Value : Type} (cls : FactoryClass) (tag : String) (args : Args)
    (reg : Registry Args Value) : Except String Value × Registry Args Value :=
  match regLookup (canonicalize cls tag) reg with
  | some r => (Except.ok (r.fn args), reg)
  | none => (Except.error ("Tag " ++ canonicalize cls tag
      ++ " is not registered in the namespace " ++ namespaceOf cls), reg)

/-- Python dict assignment `d[k] = v`: replace in place if the key is
present, else append (insertion order). -/
def dict_insert {Value : Type} (k : String) (v : Value) :
    List (String × Value) → List (String × Value)
  | [] => [(k, v)]
  | (k', v') :: rest =>
    if k = k' then (k, v) :: rest else (k', v') :: dict_insert k v rest

/-- The merge loop of `decorated`:
`for name, value in zip(parameters, args[1:]): kwargs[name] = value`,
where `parameters` are the wrapped function's parameter names minus `self`. -/
def merge_args {Value : Type} (parameters : List String) (posArgs : List Value)
    (kwargs : List (String × Value)) : List (String × Value) :=
  match parameters, posArgs with
  | p :: ps, v :: vs => merge_args ps vs (dict_insert p v kwargs)
  | _, _ => kwargs

/-- The Python message of `name in None`. -/
def noneNotIterableMsg : String :=
  "TypeError: argument of type 'NoneType' is not iterable"

/-- The assignment loop of `decorated`:
`for name, value in kwargs.items(): if name in special_items: continue;
setattr(self_, name, value)`.  When `special_items` is `None`, the membership
test of the first iteration raises `TypeError`; object attributes are a dict
updated by `setattr`. -/
def assign_fields {Value : Type} (special_items : Option (List String))
    (fields : List (String × Value)) :
    List (String × Value) → Except String (List (String × Value))
  | [] => Except.ok fields
  | (name, value) :: rest =>
    match special_items with
    | none => Except.error noneNotIterableMsg
    | some items =>
      if name ∈ items then assign_fields special_items fields rest
      else assign_fields special_items (dict_insert name value fields) rest

/-- Embedding of the call of a function wrapped by
`auto_field_assignment(special_items)`: merge positional arguments into the
keyword dict, run the assignment loop on `self_`'s attribute dict, then call
the wrapped function with the merged keywords.  `Except.ok (fields, merged)`
means the wrapped function ran, with `self_`'s attributes now `fields` and
keyword arguments `merged`; `Except.error` means the call raised before the
wrapped function ran. -/
def decorated {Value : Type} (parameters : List String)
    (special_items : Option (List String)) (self_fields : List (String × Value))
    (posArgs : List Value) (kwargs : List (String × Value)) :
    Except String (List (String × Value) × List (String × Value)) :=
  match assign_fields special_items self_fields (merge_args parameters posArgs kwargs) with
  | Except.error e => Except.error e
  | Except.ok fields => Except.ok (fields, merge_args parameters posArgs kwargs)

/-- The needle occurs verbatim inside the haystack. -/
def occursIn (needle haystack : String) : Prop :=
  ∃ a b, haystack = a ++ needle ++ b

section Lemmas

variable {Args Value : Type}

theorem keys_append (l₁ l₂ : Registry Args Value) :
    keys (l₁ ++ l₂) = keys l₁ ++ keys l₂ :=
  List.map_append _ _ _

theorem regLookup_eq_none {k : String} {reg : Registry Args Value}
    (h : k ∉ keys reg) : regLookup k reg = none := by
  induction reg with
  | nil => rfl
  | cons hd tl ih =>
    obtain ⟨k', r⟩ := hd
    simp only [keys, List.map_cons, List.mem_cons, not_or] at h
    simp only [regLookup, if_neg h.1]
    exact ih (by simpa [keys] using h.2)

theorem mem_keys_of_regLookup {k : String} {reg : Registry Args Value}
    {r : Registree Args Value} (h : regLookup k reg = some r) : k ∈ keys reg := by
  induction reg with
  | nil => simp [regLookup] at h
  | cons hd tl ih =>
    obtain ⟨k', v⟩ := hd
    by_cases hk : k = k'
    · simp [keys, hk]
    · simp only [regLookup, if_neg hk] at h
      simp only [keys, List.map_cons, List.mem_cons]
      exact Or.inr (by simpa [keys] using ih h)

theorem regLookup_append_left {k : String} {reg l : Registry Args Value}
    {v : Registree Args Value} (h : regLookup k reg = some v) :
    regLookup k (reg ++ l) = some v := by
  induction reg with
  | nil => simp [regLookup] at h
  | cons hd tl ih =>
    obtain ⟨k', r⟩ := hd
    by_cases hk : k = k'
    · simp only [regLookup, if_pos hk] at h
      simp only [List.cons_append, regLookup, if_pos hk, h]
    · simp only [regLookup, if_neg hk] at h
      simp only [List.cons_append, regLookup, if_neg hk]
      exact ih h

theorem regLookup_append_self {k : String} {reg : Registry Args Value}
    (r : Registree Args Value) (h : k ∉ keys reg) :
    regLookup k (reg ++ [(k, r)]) = some r := by
  induction reg with
  | nil => simp [regLookup]
  | cons hd tl ih =>
    obtain ⟨k', v⟩ := hd
    simp only [keys, List.map_cons, List.mem_cons, not_or] at h
    simp only [List.cons_append, regLookup, if_neg h.1]
    exact ih (by simpa [keys] using h.2)

theorem register_not_mem (cls : FactoryClass) (ct : Option String)
    (r : Registree Args Value) (reg : Registry Args Value)
    (h : canonicalize cls (effective_tag ct r) ∉ keys reg) :
    register cls ct r reg
      = (Except.ok r, reg ++ [(canonicalize cls (effective_tag ct r), r)]) := by
  simp [register, h]

theorem register_mem (cls : FactoryClass) (ct : Option String)
    (r : Registree Args Value) (reg : Registry Args Value)
    (h : canonicalize cls (effective_tag ct r) ∈ keys reg) :
    register cls ct r reg
      = (Except.error ("Duplicate tag registration found! Tag "
          ++ canonicalize cls (effective_tag ct r)
          ++ " has already been registered"), reg) := by
  simp [register, h]

theorem register_ok_inv {cls : FactoryClass} {ct : Option String}
    {r res : Registree Args Value} {reg reg' : Registry Args Value}
    (h : register cls ct r reg = (Except.ok res, reg')) :
    res = r ∧ canonicalize cls (effective_tag ct r) ∉ keys reg ∧
      reg' = reg ++ [(canonicalize cls (effective_tag ct r), r)] := by
  by_cases hm : canonicalize cls (effective_tag ct r) ∈ keys reg
  · rw [register_mem cls ct r reg hm, Prod.mk.injEq] at h
    exact absurd h.1 (by simp)
  · rw [register_not_mem cls ct r reg hm, Prod.mk.injEq] at h
    obtain ⟨h1, h2⟩ := h
    refine ⟨?_, hm, h2.symm⟩
    injection h1 with h1
    exact h1.symm

theorem create_found (cls : FactoryClass) (tag : String) (args : Args)
    (reg : Registry Args Value) (r : Registree Args Value)
    (h : regLookup (canonicalize cls tag) reg = some r) :
    create cls tag args reg = (Except.ok (r.fn args), reg) := by
  simp [create, h]

theorem create_missing (cls : FactoryClass) (tag : String) (args : Args)
    (reg : Registry Args Value)
    (h : regLookup (canonicalize cls tag) reg = none) :
    create cls tag args reg = (Except.error ("Tag " ++ canonicalize cls tag
      ++ " is not registered in the namespace " ++ namespaceOf cls), reg) := by
  simp [create, h]

theorem create_snd (cls : FactoryClass) (tag : String) (args : Args)
    (reg : Registry Args Value) : (create cls tag args reg).snd = reg := by
  unfold create
  cases regLookup (canonicalize cls tag) reg <;> rfl

theorem append_cons_inj {α : Type} {c : α} :
    ∀ {l₁ l₂ r₁ r₂ : List α}, c ∉ l₁ → c ∉ l₂ →
      l₁ ++ c :: r₁ = l₂ ++ c :: r₂ → l₁ = l₂ ∧ r₁ = r₂ := by
  intro l₁
  induction l₁ with
  | nil =>
    intro l₂ r₁ r₂ h₁ h₂ heq
    cases l₂ with
    | nil => simpa using heq
    | cons y ys =>
      simp only [List.nil_append, List.cons_append, List.cons.injEq] at heq
      exact absurd (heq.1 ▸ List.mem_cons_self y ys) h₂
  | cons x xs ih =>
    intro l₂ r₁ r₂ h₁ h₂ heq
    cases l₂ with
    | nil =>
      simp only [List.cons_append, List.nil_append, List.cons.injEq] at heq
      exact absurd (heq.1 ▸ List.mem_cons_self x xs) (heq.1 ▸ h₁)
    | cons y ys =>
      simp only [List.cons_append, List.cons.injEq] at heq
      obtain ⟨hxy, htail⟩ := heq
      have hrec := ih (fun hc => h₁ (List.mem_cons_of_mem _ hc))
        (fun hc => h₂ (List.mem_cons_of_mem _ hc)) htail
      exact ⟨by rw [hxy, hrec.1], hrec.2⟩

theorem namespaceOf_inj {A B : FactoryClass}
    (hA : '.' ∉ A.name.data) (hB : '.' ∉ B.name.data)
    (h : namespaceOf A = namespaceOf B) : A = B := by
  have hd : A.module.data ++ '.' :: A.name.data
      = B.module.data ++ '.' :: B.name.data := by
    have h2 := congrArg String.data h
    simpa [namespaceOf, String.data_append, List.append_assoc] using h2
  have hrev : A.name.data.reverse ++ '.' :: A.module.data.reverse
      = B.name.data.reverse ++ '.' :: B.module.data.reverse := by
    have h3 := congrArg List.reverse hd
    simpa [List.reverse_append, List.reverse_cons, List.append_assoc] using h3
  have hA' : '.' ∉ A.name.data.reverse := by simpa [List.mem_reverse] using hA
  have hB' : '.' ∉ B.name.data.reverse := by simpa [List.mem_reverse] using hB
  obtain ⟨h1, h2⟩ := append_cons_inj hA' hB' hrev
  have hname : A.name = B.name := String.ext (List.reverse_injective h1)
  have hmod : A.module = B.module := String.ext (List.reverse_injective h2)
  cases A; cases B; simp_all

theorem canonicalize_inj_left {cls : FactoryClass} {t₁ t₂ : String}
    (h : canonicalize cls t₁ = canonicalize cls t₂) : t₁ = t₂ := by
  have hd := congrArg String.data h
  simp only [canonicalize, String.data_append] at hd
  exact String.ext (List.append_cancel_left hd)

theorem namespaceOf_eq_of_canonicalize_eq {A B : FactoryClass} {T : String}
    (h : canonicalize A T = canonicalize B T) : namespaceOf A = namespaceOf B := by
  have hd := congrArg String.data h
  simp only [canonicalize, String.data_append] at hd
  exact String.ext (List.append_cancel_right (List.append_cancel_right hd))

end Lemmas

/-- A concrete registry subtype for witnesses (module `shapes`). -/
def exCls : FactoryClass := ⟨"shapes", "ShapeFactory"⟩

/-- A second concrete registry subtype in the same module. -/
def exCls2 : FactoryClass := ⟨"shapes", "PolyFactory"⟩

/-- A concrete registree named `Square`. -/
def exSquare : Registree (List Nat) Nat := ⟨"Square", fun l => l.foldl (fun a b => a * b) 1⟩

/-- A concrete registree named `Circle`. -/
def exCircle : Registree (List Nat) Nat := ⟨"Circle", fun l => l.length⟩

/-- A concrete registry state holding `Square` under tag `sq`. -/
def exRegistry : Registry (List Nat) Nat := [(canonicalize exCls "sq", exSquare)]

/-- C1: round-trip through the registry.  If registering constructor `r` under
custom tag `ct` succeeds in state `reg`, then `create` called with the tag
used for registration returns exactly the result of calling `r` directly on
the same arguments. -/
theorem C1_roundtrip {Args Value : Type} (cls : FactoryClass) (ct : Option String)
    (r res : Registree Args Value) (reg reg' : Registry Args Value) (args : Args)
    (h : register cls ct r reg = (Except.ok res, reg')) :
    (create cls (effective_tag ct r) args reg').fst = Except.ok (r.fn args) := by
  obtain ⟨-, hm, hreg⟩ := register_ok_inv h
  rw [hreg, create_found cls _ args _ r (regLookup_append_self r hm)]

/-- Witness for C1: registering `Square` under tag `sq` in the empty registry
and creating by `sq` returns `Square`'s own result. -/
theorem C1_roundtrip_witness :
    (create exCls (effective_tag (some "sq") exSquare) [3, 4]
      [(canonicalize exCls (effective_tag (some "sq") exSquare), exSquare)]).fst
      = Except.ok (exSquare.fn [3, 4]) :=
  C1_roundtrip exCls (some "sq") exSquare exSquare []
    [(canonicalize exCls (effective_tag (some "sq") exSquare), exSquare)] [3, 4] rfl

/-- C2: registering a canonical key that is already present fails with the
Duplicate Registration message, leaves the table unchanged, and the first
registration's entry stays usable: `create` with that tag still invokes it. -/
theorem C2_duplicate_registration {Args Value : Type} (cls : FactoryClass)
    (ct : Option String) (r₂ : Registree Args Value) (reg : Registry Args Value)
    (args : Args) (r₁ : Registree Args Value)
    (h : regLookup (canonicalize cls (effective_tag ct r₂)) reg = some r₁) :
    (register cls ct r₂ reg).fst
      = Except.error ("Duplicate tag registration found! Tag "
          ++ canonicalize cls (effective_tag ct r₂) ++ " has already been registered") ∧
    (register cls ct r₂ reg).snd = reg ∧
    (create cls (effective_tag ct r₂) args (register cls ct r₂ reg).snd).fst
      = Except.ok (r₁.fn args) := by
  have hm := mem_keys_of_regLookup h
  rw [register_mem cls ct r₂ reg hm]
  exact ⟨rfl, rfl, by rw [create_found cls _ args reg r₁ h]⟩

/-- Witness for C2: re-registering `Square` under `sq` on a table that already
holds `sq` errors, keeps the table, and `create` still reaches `Square`. -/
theorem C2_duplicate_registration_witness :
    (register exCls (some "sq") exCircle exRegistry).fst
      = Except.error ("Duplicate tag registration found! Tag "
          ++ canonicalize exCls (effective_tag (some "sq") exCircle)
          ++ " has already been registered") ∧
    (register exCls (some "sq") exCircle exRegistry).snd = exRegistry ∧
    (create exCls (effective_tag (some "sq") exCircle) [5]
      (register exCls (some "sq") exCircle exRegistry).snd).fst
      = Except.ok (exSquare.fn [5]) :=
  C2_duplicate_registration exCls (some "sq") exCircle exRegistry [5] exSquare rfl

/-- C3: creating with a tag whose canonical key is absent returns the
Unregistered Tag error instead of a value, and the message contains both the
attempted canonical key and the subtype's namespace. -/
theorem C3_unregistered_tag {Args Value : Type} (cls : FactoryClass) (tag : String)
    (args : Args) (reg : Registry Args Value)
    (h : canonicalize cls tag ∉ keys reg) :
    ∃ msg, (create cls tag args reg).fst = Except.error msg ∧
      occursIn (canonicalize cls tag) msg ∧ occursIn (namespaceOf cls) msg := by
  refine ⟨"Tag " ++ canonicalize cls tag ++ " is not registered in the namespace "
      ++ namespaceOf cls, ?_, ?_, ?_⟩
  · rw [create_missing cls tag args reg (regLookup_eq_none h)]
  · exact ⟨"Tag ", " is not registered in the namespace " ++ namespaceOf cls, by
      simp [String.append_assoc]⟩
  · exact ⟨"Tag " ++ canonicalize cls tag ++ " is not registered in the namespace ", "", by
      simp [String.append_assoc]⟩

/-- Witness for C3: creating `triangle` on the empty registry errors with a
message containing the canonical key and the namespace. -/
theorem C3_unregistered_tag_witness :
    ∃ msg, (create exCls "triangle" [1] ([] : Registry (List Nat) Nat)).fst
        = Except.error msg ∧
      occursIn (canonicalize exCls "triangle") msg ∧ occursIn (namespaceOf exCls) msg :=
  C3_unregistered_tag exCls "triangle" [1] [] (by simp [keys])

/-- C4 counterexample: two distinct subtypes (module `a.b`, name `c` versus
module `a`, name `b.c`) produce the same canonical key for the same tag, so
the claim as stated fails when a class name contains a dot. -/
theorem C4_counterexample :
    (⟨"a.b", "c"⟩ : FactoryClass) ≠ (⟨"a", "b.c"⟩ : FactoryClass) ∧
    canonicalize ⟨"a.b", "c"⟩ "t" = canonicalize ⟨"a", "b.c"⟩ "t" :=
  ⟨by decide, rfl⟩

/-- C4 (amended): for distinct subtypes whose class names contain no dot (as
Python identifiers introduced by class statements do), the canonical keys of
the same tag differ. -/
theorem C4_distinct_subtypes (A B : FactoryClass) (T : String)
    (hA : '.' ∉ A.name.data) (hB : '.' ∉ B.name.data) (hne : A ≠ B) :
    canonicalize A T ≠ canonicalize B T :=
  fun h => hne (namespaceOf_inj hA hB (namespaceOf_eq_of_canonicalize_eq h))

/-- Witness for C4: `ShapeFactory` and `PolyFactory` canonicalize the tag
`sq` differently. -/
theorem C4_distinct_subtypes_witness :
    canonicalize exCls "sq" ≠ canonicalize exCls2 "sq" :=
  C4_distinct_subtypes exCls exCls2 "sq" (by decide) (by decide) (by decide)

/-- C5: `canonicalize` is the concatenation of the namespace, the delimiter
dot, and the tag; hence two different tags canonicalized by the same subtype
give different canonical keys. -/
theorem C5_canonicalize_concat (cls : FactoryClass) :
    (∀ tag, canonicalize cls tag = namespaceOf cls ++ "." ++ tag) ∧
    ∀ t₁ t₂, t₁ ≠ t₂ → canonicalize cls t₁ ≠ canonicalize cls t₂ :=
  ⟨fun _ => rfl, fun _ _ hne h => hne (canonicalize_inj_left h)⟩

/-- Witness for C5 at concrete tags `Circle` and `sq`. -/
theorem C5_canonicalize_concat_witness :
    canonicalize exCls "Circle" = namespaceOf exCls ++ "." ++ "Circle" ∧
    canonicalize exCls "Circle" ≠ canonicalize exCls "sq" :=
  ⟨(C5_canonicalize_concat exCls).1 "Circle",
    (C5_canonicalize_concat exCls).2 "Circle" "sq" (by decide)⟩

/-- C6: with no explicit custom tag the tag used is `default_tag`, which is
the registree's own `__name__`, and a subsequent `create` with that tag
invokes the registree. -/
theorem C6_default_tag {Args Value : Type} (cls : FactoryClass)
    (r res : Registree Args Value) (reg reg' : Registry Args Value) (args : Args)
    (h : register cls none r reg = (Except.ok res, reg')) :
    effective_tag (none : Option String) r = default_tag r ∧
    default_tag r = r.name ∧
    (create cls (default_tag r) args reg').fst = Except.ok (r.fn args) := by
  refine ⟨rfl, rfl, ?_⟩
  obtain ⟨-, hm, hreg⟩ := register_ok_inv h
  simp only [effective_tag] at hm hreg
  rw [hreg, create_found cls _ args _ r (regLookup_append_self r hm)]

/-- Witness for C6: registering `Circle` with no custom tag, then creating by
its name, returns `Circle`'s own result. -/
theorem C6_default_tag_witness :
    effective_tag (none : Option String) exCircle = default_tag exCircle ∧
    default_tag exCircle = exCircle.name ∧
    (create exCls (default_tag exCircle) [2, 2]
      [(canonicalize exCls (effective_tag none exCircle), exCircle)]).fst
      = Except.ok (exCircle.fn [2, 2]) :=
  C6_default_tag exCls exCircle exCircle []
    [(canonicalize exCls (effective_tag none exCircle), exCircle)] [2, 2] rfl

/-- C7: when the canonical key is fresh, the decorator returns the registree
itself unchanged, and its only effect is inserting the one entry into the
table. -/
theorem C7_decorator_identity {Args Value : Type} (cls : FactoryClass)
    (ct : Option String) (r : Registree Args Value) (reg : Registry Args Value)
    (h : canonicalize cls (effective_tag ct r) ∉ keys reg) :
    (register cls ct r reg).fst = Except.ok r ∧
    (register cls ct r reg).snd
      = reg ++ [(canonicalize cls (effective_tag ct r), r)] := by
  rw [register_not_mem cls ct r reg h]
  exact ⟨rfl, rfl⟩

/-- Witness for C7: registering `Circle` in the empty registry returns
`Circle` itself and appends its entry. -/
theorem C7_decorator_identity_witness :
    (register exCls none exCircle ([] : Registry (List Nat) Nat)).fst
      = Except.ok exCircle ∧
    (register exCls none exCircle ([] : Registry (List Nat) Nat)).snd
      = [] ++ [(canonicalize exCls (effective_tag none exCircle), exCircle)] :=
  C7_decorator_identity exCls none exCircle [] (by simp [keys])

/-- C8: the table is insert-only.  A successful `register` appends exactly
one fresh key; an unsuccessful one leaves the table as it was; every lookup
that succeeded before a `register` still returns the same entry after it; and
`create` returns the table unchanged on both of its paths. -/
theorem C8_insert_only {Args Value : Type} (cls : FactoryClass) (ct : Option String)
    (r : Registree Args Value) (reg : Registry Args Value) (tag : String)
    (args : Args) :
    ((register cls ct r reg).fst = Except.ok r →
      keys (register cls ct r reg).snd
          = keys reg ++ [canonicalize cls (effective_tag ct r)] ∧
        canonicalize cls (effective_tag ct r) ∉ keys reg) ∧
    ((register cls ct r reg).fst ≠ Except.ok r → (register cls ct r reg).snd = reg) ∧
    (∀ k v, regLookup k reg = some v →
      regLookup k (register cls ct r reg).snd = some v) ∧
    (create cls tag args reg).snd = reg := by
  by_cases hm : canonicalize cls (effective_tag ct r) ∈ keys reg
  · rw [register_mem cls ct r reg hm]
    exact ⟨fun hok => absurd hok (by simp), fun _ => rfl, fun k v h => h,
      create_snd cls tag args reg⟩
  · rw [register_not_mem cls ct r reg hm]
    refine ⟨fun _ => ⟨?_, hm⟩, fun hne => absurd rfl hne,
      fun k v h => regLookup_append_left h, create_snd cls tag args reg⟩
    simp [keys_append, keys]

/-- Witness for C8: registering `Circle` on a table holding `sq` appends its
key, preserves the `sq` lookup, and `create` leaves the table unchanged. -/
theorem C8_insert_only_witness :
    keys (register exCls none exCircle exRegistry).snd
        = keys exRegistry ++ [canonicalize exCls (effective_tag none exCircle)] ∧
    regLookup (canonicalize exCls "sq") (register exCls none exCircle exRegistry).snd
        = some exSquare ∧
    (create exCls "t" [1] exRegistry).snd = exRegistry :=
  ⟨((C8_insert_only exCls none exCircle exRegistry "t" [1]).1 rfl).1,
    (C8_insert_only exCls none exCircle exRegistry "t" [1]).2.2.1 _ exSquare rfl,
    (C8_insert_only exCls none exCircle exRegistry "t" [1]).2.2.2⟩

/-- C9: the empty string as explicit custom tag is falsy, so registration
silently falls back to the registree's default tag: it behaves exactly like
registering with no custom tag. -/
theorem C9_empty_custom_tag {Args Value : Type} (cls : FactoryClass)
    (r : Registree Args Value) (reg : Registry Args Value) :
    effective_tag (some "") r = default_tag r ∧
    register cls (some "") r reg = register cls none r reg :=
  ⟨rfl, rfl⟩

theorem dict_insert_ne_nil {Value : Type} (k : String) (v : Value) :
    ∀ d : List (String × Value), dict_insert k v d ≠ []
  | [] => by simp [dict_insert]
  | (k', v') :: rest => by
    simp only [dict_insert]
    split <;> simp

theorem merge_args_ne_nil_of_kwargs_ne_nil {Value : Type} :
    ∀ (ps : List String) (pos : List Value) (kw : List (String × Value)),
      kw ≠ [] → merge_args ps pos kw ≠ []
  | [], _, _, h => h
  | _ :: _, [], _, h => h
  | p :: ps, v :: vs, kw, _ =>
    merge_args_ne_nil_of_kwargs_ne_nil ps vs (dict_insert p v kw)
      (dict_insert_ne_nil p v kw)

theorem merge_args_ne_nil {Value : Type} (ps : List String) (pos : List Value)
    (kw : List (String × Value))
    (h : kw ≠ [] ∨ (pos ≠ [] ∧ ps ≠ [])) : merge_args ps pos kw ≠ [] := by
  match ps, pos with
  | [], _ =>
    cases h with
    | inl h => exact h
    | inr h => exact absurd rfl h.2
  | _ :: _, [] =>
    cases h with
    | inl h => exact h
    | inr h => exact absurd rfl h.1
  | p :: ps, v :: vs =>
    exact merge_args_ne_nil_of_kwargs_ne_nil ps vs _ (dict_insert_ne_nil p v kw)

/-- C10 counterexample: the claim as stated fails.  With `special_items`
defaulted to `None`, a call passing one non-self positional argument to a
wrapped function that has no non-self parameters does NOT fail: the zip merge
binds nothing, the assignment loop runs zero iterations, and the wrapped
function runs. -/
theorem C10_counterexample :
    ([(0 : Nat)] : List Nat) ≠ [] ∧
    decorated [] none [] [(0 : Nat)] [] = Except.ok ([], []) :=
  ⟨by decide, rfl⟩

/-- C10 (amended): with `special_items = None`, every call that passes at
least one keyword argument, or at least one positional argument while the
wrapped function has at least one non-self parameter, fails with the
`TypeError` of `name in None` before the wrapped function runs. -/
theorem C10_none_special_items {Value : Type} (parameters : List String)
    (self_fields : List (String × Value)) (posArgs : List Value)
    (kwargs : List (String × Value))
    (h : kwargs ≠ [] ∨ (posArgs ≠ [] ∧ parameters ≠ [])) :
    decorated parameters none self_fields posArgs kwargs
      = Except.error noneNotIterableMsg := by
  have hne := merge_args_ne_nil parameters posArgs kwargs h
  unfold decorated
  cases hm : merge_args parameters posArgs kwargs with
  | nil => exact absurd hm hne
  | cons x rest =>
    obtain ⟨name, value⟩ := x
    simp [assign_fields]

/-- Witness for C10 (amended): one positional argument bound to parameter
`a` raises the `TypeError` before the wrapped function runs. -/
theorem C10_none_special_items_witness :
    decorated ["a"] none [] [(1 : Nat)] [] = Except.error noneNotIterableMsg :=
  C10_none_special_items ["a"] [] [(1 : Nat)] []
    (Or.inr ⟨by simp, by simp⟩)

